import Mathlib

/-!
Verification development for the circuit ingestion and simulation pipeline of
the quantum_tutor repository (`tutor/qiskit_utils.py`, with the REST boundary
in `tutor/views.py`).  The Python code is shallowly embedded: machine floats
become exact rationals, Python dicts in insertion order become association
lists, the process-wide `sys.stdout`/`sys.stderr` handles become an explicit
`SysState` threaded through each embedded method, and calls into the external
qiskit library (`Statevector.from_instruction`, `remove_final_measurements`,
`measure_all`, the histogram renderer) are modelled from that library's
documented semantics on the gate fragment the claims exercise.
-/

/-- A complex amplitude with exact rational parts.  Embeds the Python
`complex` values produced by the statevector simulation; `float(amplitude.real)`
and `float(amplitude.imag)` become the two fields. -/
structure Cx where
  re : ℚ
  im : ℚ
deriving Repr, DecidableEq

/-- `abs(amplitude)**2` of `qiskit_utils.py`: the squared modulus
`re² + im²` (mathematically `|z|²`; floats are embedded as exact rationals). -/
def Cx.normSq (a : Cx) : ℚ := a.re * a.re + a.im * a.im

instance : Zero Cx := ⟨⟨0, 0⟩⟩

instance {α β : Type} [DecidableEq α] [DecidableEq β] :
    DecidableEq (Except α β) := fun a b =>
  match a, b with
  | .ok x, .ok y =>
    if h : x = y then .isTrue (by rw [h]) else .isFalse (by simp [h])
  | .ok _, .error _ => .isFalse (by simp)
  | .error _, .ok _ => .isFalse (by simp)
  | .error x, .error y =>
    if h : x = y then .isTrue (by rw [h]) else .isFalse (by simp [h])

/-- A numeric parameter of a gate.  In qiskit an operation's `params` list may
hold plain numbers (`float(p)` succeeds) or unbound symbolic `Parameter`
objects (`float(p)` raises `TypeError`). -/
inductive Param where
  | num (q : ℚ)
  | sym (s : String)
deriving Repr, DecidableEq

/-- Whether `float(p)` succeeds on this parameter. -/
def Param.isNum : Param → Bool
  | .num _ => true
  | .sym _ => false

/-- One entry of `QuantumCircuit.data`: a `CircuitInstruction`, exposing the
operation name (`instruction.operation.name` / `gate.name`), the operand qubit
indices (the result of `circuit.find_bit(qubit).index` over
`instruction.qubits`) and the operation's `params` list. -/
structure Instruction where
  name : String
  qubits : List ℕ
  params : List Param
deriving Repr, DecidableEq

/-- A qiskit `QuantumCircuit`: qubit count, classical-bit count, and the
ordered instruction program `data` (append order). -/
structure Circuit where
  num_qubits : ℕ
  num_clbits : ℕ
  data : List Instruction
deriving Repr, DecidableEq

/-- One element of the JSON statevector result built by
`CircuitSimulator.simulate_statevector`. -/
structure StatevectorEntry where
  state : String
  amplitude_real : ℚ
  amplitude_imag : ℚ
  probability : ℚ
deriving Repr, DecidableEq

/-- One element of the list built by `CircuitParser.extract_gates_from_circuit`.
The Python dict `{'gate_type':…, 'qubits':…, 'step_order':…, 'parameters':…}`;
the `parameters` dict is `{}` (here `[]`) unless the operation carried numeric
params, in which case it is `{'params': [float(p) …]}` (here the float list). -/
structure GateInfo where
  gate_type : String
  qubits : List ℕ
  step_order : ℕ
  parameters : List ℚ
deriving Repr, DecidableEq

/-- Binary digits of `n`, most significant first; empty for `0`. -/
def binDigits : ℕ → List Char
  | 0 => []
  | n + 1 =>
    binDigits ((n + 1) / 2) ++ [if (n + 1) % 2 = 1 then '1' else '0']
decreasing_by exact Nat.div_lt_self (Nat.succ_pos n) one_lt_two

/-- Python `format(i, f'0{w}b')`: `i` in binary, left-padded with zeros to
width `w` (wider than `w` when `i` needs more digits). -/
def toBinStr (w i : ℕ) : String :=
  let d := if i = 0 then ['0'] else binDigits i
  ⟨List.replicate (w - d.length) '0' ++ d⟩

/-- `float(p)` on one parameter: succeeds on numbers, raises (`TypeError`,
"could not cast") on unbound symbolic parameters. -/
def floatOfParam : Param → Except String ℚ
  | .num q => .ok q
  | .sym s => .error ("could not cast " ++ s ++ " to float")

/-- `[float(p) for p in instruction.operation.params]`: the whole list
conversion, failing at the first non-numeric parameter. -/
def floatParams : List Param → Except String (List ℚ)
  | [] => .ok []
  | p :: rest =>
    match floatOfParam p with
    | .error e => .error e
    | .ok q =>
      match floatParams rest with
      | .error e => .error e
      | .ok qs => .ok (q :: qs)

/-- The loop body of `extract_gates_from_circuit`, carrying the running
`step_order` counter.  Any failure inside the loop is caught by the
surrounding `except` and rewrapped below. -/
def extractGo (step : ℕ) : List Instruction → Except String (List GateInfo)
  | [] => .ok []
  | g :: rest =>
    match floatParams g.params with
    | .error e => .error e
    | .ok ps =>
      match extractGo (step + 1) rest with
      | .error e => .error e
      | .ok tail =>
        .ok ({ gate_type := g.name, qubits := g.qubits, step_order := step,
               parameters := ps } :: tail)

/-- `CircuitParser.extract_gates_from_circuit`: walks `circuit.data` in
program order, emitting one `GateInfo` per instruction with consecutive
`step_order`; the whole loop sits in a `try` whose `except` rewraps any
failure as `ValueError("Error extracting gates: …")`. -/
def extract_gates_from_circuit (c : Circuit) : Except String (List GateInfo) :=
  match extractGo 0 c.data with
  | .ok gates => .ok gates
  | .error e => .error ("Error extracting gates: " ++ e)

/-- The all-zero initial state `|0…0⟩` on `n` qubits: amplitude 1 at index 0,
0 elsewhere (length `2^n`). -/
def initState (n : ℕ) : List Cx :=
  (List.range (2 ^ n)).map (fun i => if i = 0 then ⟨1, 0⟩ else 0)

/-- Action of a Pauli-X gate on qubit `q`: new amplitude at basis index `i`
is the old amplitude at `i` with bit `q` flipped. -/
def applyX (n q : ℕ) (v : List Cx) : List Cx :=
  (List.range (2 ^ n)).map (fun i => v.getD (i ^^^ (1 <<< q)) 0)

/-- Action of a CNOT gate with control `c` and target `t`: flip bit `t` of
the index when bit `c` is set (the permutation is self-inverse). -/
def applyCX (n c t : ℕ) (v : List Cx) : List Cx :=
  (List.range (2 ^ n)).map (fun i =>
    v.getD (if i.testBit c then i ^^^ (1 <<< t) else i) 0)

/-- Modelled from the documented semantics of qiskit's
`Statevector.from_instruction` on one instruction: unitary gates of the
modelled fragment (`x`, `cx`) evolve the amplitude vector; a `measure` (or any
other non-unitary / out-of-fragment operation) makes the library raise a
`QiskitError`, embedded as `Except.error`. -/
def applyInstr (n : ℕ) (g : Instruction) (v : List Cx) : Except String (List Cx) :=
  match g.name, g.qubits with
  | "x", [q] => .ok (applyX n q v)
  | "cx", [c, t] => .ok (applyCX n c t v)
  | _, _ => .error ("cannot apply instruction " ++ g.name)

/-- Sequential application of a program to a state vector. -/
def runInstructions (n : ℕ) : List Instruction → List Cx → Except String (List Cx)
  | [], v => .ok v
  | g :: rest, v =>
    match applyInstr n g v with
    | .ok w => runInstructions n rest w
    | .error e => .error e

/-- Modelled from the documented semantics of qiskit's
`Statevector.from_instruction`: evolve `|0…0⟩` through the circuit's program;
the result has one amplitude per basis state, `2^num_qubits` in total. -/
def fromInstruction (c : Circuit) : Except String (List Cx) :=
  runInstructions c.num_qubits c.data (initState c.num_qubits)

/-- Whether some later instruction acts on one of `g`'s qubits and is neither
a measurement nor a barrier — exactly when a `measure` is NOT "final" in the
sense of qiskit's `RemoveFinalMeasurements` pass. -/
def hasLaterNonMeasure (g : Instruction) (rest : List Instruction) : Bool :=
  rest.any (fun h =>
    !(h.name == "measure" || h.name == "barrier") &&
    g.qubits.any (fun q => h.qubits.contains q))

/-- Modelled from the documented semantics of qiskit's
`QuantumCircuit.remove_final_measurements` (the `RemoveFinalMeasurements`
pass): a `measure` is removed iff it is final, i.e. followed on its qubits
only by other measurements or barriers; every other instruction is kept.
(The pass's removal of final barriers and of idle classical bits is not
modelled; no claim depends on it.) -/
def removeFinalMeasurementsData : List Instruction → List Instruction
  | [] => []
  | g :: rest =>
    if g.name == "measure" && !hasLaterNonMeasure g rest then
      removeFinalMeasurementsData rest
    else
      g :: removeFinalMeasurementsData rest

/-- `circuit.copy()` followed by `remove_final_measurements()` on the copy:
the working circuit actually handed to the statevector computation
(`qiskit_utils.py` lines 246–247). -/
def statevectorWorkingCircuit (c : Circuit) : Circuit :=
  { c with data := removeFinalMeasurementsData c.data }

/-- The JSON-conversion loop of `simulate_statevector`: one entry per
amplitude, labelled `format(i, f'0{circuit.num_qubits}b')`, with
`float(amplitude.real)`, `float(amplitude.imag)` and `abs(amplitude)**2`. -/
def formatStatevector (n : ℕ) (sv : List Cx) : List StatevectorEntry :=
  (List.range sv.length).map (fun i =>
    let a := sv.getD i 0
    { state := toBinStr n i, amplitude_real := a.re, amplitude_imag := a.im,
      probability := a.normSq })

/-- `CircuitSimulator.simulate_statevector`.  The first component is the
returned JSON list (or the raised `ValueError`); the second component is the
caller's circuit after the call — the method works on `circuit.copy()`, so it
hands back the input unchanged.  Method 1 (`Statevector.from_instruction`) is
modelled; the Aer fallback (method 2), reached only when method 1 raises, runs
an external nondeterministic backend and is embedded as the failure case — the
claims proved below concern accepted circuits and the frame, and both methods
share the formatting code embedded in `formatStatevector`. -/
def simulate_statevector (c : Circuit) :
    Except String (List StatevectorEntry) × Circuit :=
  match fromInstruction (statevectorWorkingCircuit c) with
  | .ok sv => (.ok (formatStatevector c.num_qubits sv), c)
  | .error e => (.error ("Statevector simulation failed: " ++ e), c)

/-- Modelled from the documented semantics of qiskit's
`QuantumCircuit.measure_all()`: add `num_qubits` classical bits, append a
barrier over all qubits, then append one `measure` per qubit in register
order. -/
def measure_all (c : Circuit) : Circuit :=
  { c with
    num_clbits := c.num_clbits + c.num_qubits,
    data := c.data ++
      (⟨"barrier", List.range c.num_qubits, []⟩ : Instruction) ::
      (List.range c.num_qubits).map (fun q => ⟨"measure", [q], []⟩) }

/-- Lines 299–303 of `qiskit_utils.py`: `measurement_circuit = circuit.copy()`,
then `measure_all()` on the copy iff no instruction of `data` is named
`measure`. -/
def measurementCircuit (c : Circuit) : Circuit :=
  if c.data.any (fun g => g.name == "measure") then c else measure_all c

/-- `CircuitSimulator.simulate_measurements`.  The external Aer backend's
shot results are a parameter `backendCounts` (the observed bitstring→count
map); the method derives `probabilities[state] = count/shots` from it.  The
last component is the caller's circuit after the call — all mutation happens
on the copy, so the input is handed back unchanged. -/
def simulate_measurements (c : Circuit) (shots : ℕ)
    (backendCounts : List (String × ℕ)) :
    (List (String × ℚ) × List (String × ℕ)) × Circuit :=
  let _mc := measurementCircuit c
  ((backendCounts.map (fun p => (p.1, (p.2 : ℚ) / (shots : ℚ))), backendCounts), c)

/-- The process-wide console streams: the values of `sys.stdout` and
`sys.stderr` as opaque handles.  Redirection assigns fresh `StringIO` handles;
the `finally` blocks assign the saved ones back. -/
structure SysState where
  stdout : ℕ
  stderr : ℕ
deriving Repr, DecidableEq

/-- A run-time value bound at top level by the executed user code, as far as
the scans of `qiskit_utils.py` can distinguish them: `isinstance(v,
QuantumCircuit)`, an iterable with its `str(…)` rendering, a
bitstring→count dict, or anything else. -/
inductive PyVal where
  | circuit (c : Circuit)
  | iterable (repr : String)
  | dict (entries : List (String × ℕ))
  | other (tag : String)
deriving Repr, DecidableEq

/-- The observable outcome of `exec(qiskit_code, {}, local_vars)`: either the
final top-level bindings in dict insertion order (first-assignment order), or
an exception carrying its message (`str(e)`) and its formatted traceback
(`traceback.format_exc()`). -/
inductive ExecOutcome where
  | ok (binds : List (String × PyVal))
  | exn (msg : String) (tb : String)
deriving Repr, DecidableEq

/-- The scan at lines 70–72 of `qiskit_utils.py`: the sub-dict of bindings
whose value is a `QuantumCircuit`, in dict insertion order. -/
def circuitsOf (binds : List (String × PyVal)) : List (String × Circuit) :=
  binds.filterMap (fun b =>
    match b.2 with
    | .circuit c => some (b.1, c)
    | _ => none)

/-- The message of the `ValueError` raised when no circuit is found. -/
def noCircuitMsg : String :=
  "No QuantumCircuit object found in the code. Make sure you create a QuantumCircuit instance (e.g., qc = QuantumCircuit(2))."

/-- Lines 90–91: the outer `except` rewraps any exception as
`ValueError(f"Error parsing Qiskit code: {str(e)}\n\nDebug info:\n{error_details}")`
where `error_details = traceback.format_exc()`. -/
def wrapParseError (msg tb : String) : String :=
  "Error parsing Qiskit code: " ++ msg ++ "\n\nDebug info:\n" ++ tb

/-- Modelled `traceback.format_exc()` text for the internally raised
no-circuit `ValueError` (its exact rendering is irrelevant to every claim;
only that it is traceback text). -/
def tbOfValueError (msg : String) : String :=
  "Traceback (most recent call last): ValueError: " ++ msg

/-- `CircuitParser.parse_qiskit_code`.  First component: the returned circuit
or the raised `ValueError` message.  Second component: the process streams
after the call — redirected on entry (fresh handles), restored by the inner
`finally` on every path, including the ones that raise to the caller. -/
def parse_qiskit_code (s : SysState) (outcome : ExecOutcome) :
    Except String Circuit × SysState :=
  let saved := s
  let redirected : SysState := { stdout := s.stdout + 1, stderr := s.stderr + 1 }
  let bodyResult : Except String Circuit :=
    match outcome with
    | .exn msg tb => .error (wrapParseError msg tb)
    | .ok binds =>
      match circuitsOf binds with
      | [] => .error (wrapParseError noCircuitMsg (tbOfValueError noCircuitMsg))
      | (_, c) :: _ => .ok c
  let afterFinally : SysState :=
    { redirected with stdout := saved.stdout, stderr := saved.stderr }
  (bodyResult, afterFinally)

/-- The REST boundary, `views.py` lines 133–137: the `except` around
`parse_circuit` turns any raised exception into the response payload
`{'error': str(e)}`; a successful parse produces no error payload. -/
def parseCircuitErrorPayload (s : SysState) (outcome : ExecOutcome) :
    Option String :=
  match (parse_qiskit_code s outcome).1 with
  | .error e => some e
  | .ok _ => none

/-- The observable behaviour of one `exec` of user code inside
`execute_user_code`: everything printed to the redirected stdout and stderr,
the HTML plot entries appended by intercepted `plot_histogram` calls, the
final top-level bindings, and the exception (message) if one was raised. -/
structure UserRun where
  printedOut : String
  printedErr : String
  plotsMade : List String
  binds : List (String × PyVal)
  exn : Option String
deriving Repr, DecidableEq

/-- The `output_data` dict of `execute_user_code`. -/
structure OutputData where
  text_output : String
  plots : List String
  circuit : Option String
  statevector : Option String
  counts : Option (List (String × ℕ))
deriving Repr, DecidableEq

/-- The scanning loop at lines 208–214: the LAST circuit-typed binding wins
the `circuit` slot; a binding literally named `statevector` that is iterable
is stringified; a binding literally named `counts` that is a dict is kept. -/
def scanBinds (od : OutputData) : List (String × PyVal) → OutputData
  | [] => od
  | (n, v) :: rest =>
    match v with
    | .circuit _ => scanBinds { od with circuit := some n } rest
    | .iterable r =>
      if n == "statevector" then scanBinds { od with statevector := some r } rest
      else scanBinds od rest
    | .dict entries =>
      if n == "counts" then scanBinds { od with counts := some entries } rest
      else scanBinds od rest
    | .other _ => scanBinds od rest

/-- The `STDERR: ` tagging at lines 229–232: stderr content is appended to
`text_output` with a prefix tag, and only when non-empty. -/
def stderrTag (e : String) : String :=
  if e == "" then "" else "STDERR: " ++ e

/-- `CircuitSimulator.execute_user_code` on one observed user run.  A user
exception is caught by the inner `except`, which prints
`"Execution error: …"` to the (still redirected) stdout and skips the
binding scan; the `finally` restores the streams and assembles
`text_output`; the method then returns the best-effort `output_data`.  The
outer `except` (machinery failure) is the `Except.error` case, unreachable
for any observed run.  Second component: the process streams after the
call. -/
def execute_user_code (s : SysState) (run : UserRun) :
    Except String OutputData × SysState :=
  let saved := s
  let redirected : SysState := { stdout := s.stdout + 1, stderr := s.stderr + 1 }
  let od0 : OutputData :=
    { text_output := "", plots := run.plotsMade, circuit := none,
      statevector := none, counts := none }
  let capturedOut : String :=
    run.printedOut ++
      (match run.exn with
       | some m => "Execution error: " ++ m ++ "\n"
       | none => "")
  let od1 : OutputData :=
    match run.exn with
    | some _ => od0
    | none => scanBinds od0 run.binds
  let afterFinally : SysState :=
    { redirected with stdout := saved.stdout, stderr := saved.stderr }
  (.ok { od1 with text_output := capturedOut ++ stderrTag run.printedErr },
   afterFinally)

/-- The RFC 4648 base64 alphabet, as used by Python's `base64.b64encode`. -/
def base64Table : List Char :=
  "ABCDEFGHIJKLMNOPQRSTUVWXYZabcdefghijklmnopqrstuvwxyz0123456789+/".data

/-- The alphabet character for one 6-bit group. -/
def b64char (n : ℕ) : Char := base64Table.getD n 'A'

/-- Encode one final chunk of 1, 2 or 3 bytes into 4 characters. -/
def base64Chunk : List ℕ → List Char
  | [a] => [b64char (a / 4), b64char (a % 4 * 16), '=', '=']
  | [a, b] => [b64char (a / 4), b64char (a % 4 * 16 + b / 16),
               b64char (b % 16 * 4), '=']
  | a :: b :: c :: _ => [b64char (a / 4), b64char (a % 4 * 16 + b / 16),
                         b64char (b % 16 * 4 + c / 64), b64char (c % 64)]
  | [] => []

/-- `base64.b64encode(buffer.getvalue()).decode()`: standard base64 over the
byte list. -/
def base64Encode : List ℕ → List Char
  | [] => []
  | [a] => base64Chunk [a]
  | [a, b] => base64Chunk [a, b]
  | a :: b :: c :: rest => base64Chunk [a, b, c] ++ base64Encode rest

/-- The f-string at line 175 of `qiskit_utils.py`: the HTML fragment appended
to `output_data['plots']`, embedding the title and the base64 payload. -/
def plotHtml (title : String) (payload : List Char) : String :=
  "<div class=\"plot-container\" style=\"margin: 20px 0; text-align: center;\"><h4>"
    ++ title ++
    "</h4><img src=\"data:image/png;base64," ++ String.mk payload ++
    "\" alt=\"Histogram\" style=\"max-width: 100%; border: 1px solid #ccc; border-radius: 8px; background: white;\"></div>"

/-- `safe_plot_histogram` (lines 160–182).  `render` is the outcome of the
external `qiskit.visualization.plot_histogram` + `fig.savefig` pipeline: the
PNG bytes on success, the exception message on failure.  Arguments `plots`
and `captured` are the closed-over `output_data['plots']` list and the
redirected-stdout text before the call; the result is the call's return
string together with both after the call.  The function is total: both the
success path and the failure path return a string, so the call never raises
into the executing user code. -/
def safe_plot_histogram (title : String) (render : Except String (List ℕ))
    (plots : List String) (captured : String) :
    String × List String × String :=
  match render with
  | .ok bytes =>
    ("Plot '" ++ title ++ "' generated successfully",
     plots ++ [plotHtml title (base64Encode bytes)],
     captured)
  | .error e =>
    ("Plot generation failed: " ++ e,
     plots,
     captured ++ "Plot generation failed: " ++ e ++ "\n")

/-- Substring test: does `needle` occur contiguously inside `hay`? -/
def strContainsSub (needle hay : String) : Bool :=
  hay.data.tails.any (fun t => needle.data.isPrefixOf t)

/-! ## Properties of gate extraction -/

lemma extractGo_ok (l : List Instruction) :
    ∀ (step : ℕ) (gates : List GateInfo), extractGo step l = .ok gates →
      gates.length = l.length ∧
      ∀ i (hi : i < gates.length) (hc : i < l.length),
        gates[i].step_order = step + i ∧
        gates[i].gate_type = l[i].name ∧
        gates[i].qubits = l[i].qubits ∧
        floatParams l[i].params = .ok gates[i].parameters := by
  induction l with
  | nil =>
    intro step gates h
    simp only [extractGo] at h
    cases h
    simp
  | cons g rest ih =>
    intro step gates h
    simp only [extractGo] at h
    cases hps : floatParams g.params with
    | error e => rw [hps] at h; simp at h
    | ok ps =>
      rw [hps] at h
      cases htail : extractGo (step + 1) rest with
      | error e => rw [htail] at h; simp at h
      | ok tail =>
        rw [htail] at h
        cases h
        obtain ⟨hlen, hidx⟩ := ih (step + 1) tail htail
        refine ⟨by simp [hlen], ?_⟩
        intro i hi hc
        cases i with
        | zero => exact ⟨by simp, rfl, rfl, by simpa using hps⟩
        | succ j =>
          have hj : j < tail.length := by simpa using hi
          have hjc : j < rest.length := by simpa using hc
          obtain ⟨h1, h2, h3, h4⟩ := hidx j hj hjc
          exact ⟨h1.trans (by omega), h2, h3, h4⟩

/-- C4: for every circuit built by appending gates in a known sequence,
`extract_gates_from_circuit` returns one record per instruction in the
circuit's internal program order (`data`), with `step_order` values exactly
`0..len-1`, strictly increasing, matching the order the gates were appended
during construction. -/
theorem extract_gates_step_order (c : Circuit) (gates : List GateInfo)
    (h : extract_gates_from_circuit c = Except.ok gates) :
    gates.length = c.data.length ∧
    ∀ i (hi : i < gates.length) (hc : i < c.data.length),
      gates[i].step_order = i ∧
      gates[i].gate_type = c.data[i].name ∧
      gates[i].qubits = c.data[i].qubits := by
  have h2 : extractGo 0 c.data = .ok gates := by
    simp only [extract_gates_from_circuit] at h
    cases hgo : extractGo 0 c.data with
    | error e => rw [hgo] at h; simp at h
    | ok gs => rw [hgo] at h; cases h; rfl
  obtain ⟨hlen, hidx⟩ := extractGo_ok c.data 0 gates h2
  refine ⟨hlen, fun i hi hc => ?_⟩
  obtain ⟨h1, h2, h3, _⟩ := hidx i hi hc
  exact ⟨by simpa using h1, h2, h3⟩

/-- A concrete three-gate circuit in append order. -/
def cW4 : Circuit :=
  ⟨2, 0, [⟨"h", [0], []⟩, ⟨"cx", [0, 1], []⟩, ⟨"rx", [0], [Param.num 3]⟩]⟩

/-- The gate list extracted from `cW4`. -/
def gatesW4 : List GateInfo :=
  [⟨"h", [0], 0, []⟩, ⟨"cx", [0, 1], 1, []⟩, ⟨"rx", [0], 2, [3]⟩]

/-- Witness for C4 at the concrete circuit `cW4`. -/
theorem extract_gates_step_order_witness :
    extract_gates_from_circuit cW4 = Except.ok gatesW4 ∧
    gatesW4.length = cW4.data.length ∧
    (gatesW4.get ⟨0, by decide⟩).step_order = 0 ∧
    (gatesW4.get ⟨1, by decide⟩).step_order = 1 ∧
    (gatesW4.get ⟨2, by decide⟩).step_order = 2 := by
  have h : extract_gates_from_circuit cW4 = Except.ok gatesW4 := by rfl
  have h2 := extract_gates_step_order cW4 gatesW4 h
  refine ⟨h, h2.1, ?_, ?_, ?_⟩
  · simpa using (h2.2 0 (by decide) (by decide)).1
  · simpa using (h2.2 1 (by decide) (by decide)).1
  · simpa using (h2.2 2 (by decide) (by decide)).1

lemma floatParams_ok_all (ps : List Param) (h : ∀ p ∈ ps, p.isNum = true) :
    ∃ qs, floatParams ps = .ok qs := by
  induction ps with
  | nil => exact ⟨[], rfl⟩
  | cons p rest ih =>
    obtain ⟨qs, hqs⟩ := ih (fun q hq => h q (List.mem_cons_of_mem p hq))
    cases p with
    | num q => exact ⟨q :: qs, by simp [floatParams, floatOfParam, hqs]⟩
    | sym s => simpa [Param.isNum] using h (.sym s) (List.mem_cons_self _ _)

lemma floatParams_err (ps : List Param) (h : ∃ p ∈ ps, p.isNum = false) :
    ∃ e, floatParams ps = .error e := by
  induction ps with
  | nil => simp at h
  | cons p rest ih =>
    cases p with
    | sym s =>
      exact ⟨"could not cast " ++ s ++ " to float",
        by simp [floatParams, floatOfParam]⟩
    | num q =>
      have hrest : ∃ p ∈ rest, p.isNum = false := by
        obtain ⟨p, hp, hfalse⟩ := h
        rcases List.mem_cons.mp hp with rfl | hmem
        · simp [Param.isNum] at hfalse
        · exact ⟨p, hmem, hfalse⟩
      obtain ⟨e, he⟩ := ih hrest
      exact ⟨e, by simp [floatParams, floatOfParam, he]⟩

lemma extractGo_ok_all (l : List Instruction) :
    ∀ step, (∀ g ∈ l, ∀ p ∈ g.params, p.isNum = true) →
      ∃ gates, extractGo step l = .ok gates := by
  induction l with
  | nil => exact fun step _ => ⟨[], rfl⟩
  | cons g rest ih =>
    intro step h
    obtain ⟨ps, hps⟩ :=
      floatParams_ok_all g.params (h g (List.mem_cons_self _ _))
    obtain ⟨tail, htail⟩ :=
      ih (step + 1) (fun g2 hg2 => h g2 (List.mem_cons_of_mem g hg2))
    exact ⟨{ gate_type := g.name, qubits := g.qubits, step_order := step,
             parameters := ps } :: tail, by simp [extractGo, hps, htail]⟩

lemma extractGo_err (l : List Instruction) :
    ∀ step, (∃ g ∈ l, ∃ p ∈ g.params, p.isNum = false) →
      ∃ e, extractGo step l = .error e := by
  induction l with
  | nil => intro step h; simp at h
  | cons g rest ih =>
    intro step h
    cases hps : floatParams g.params with
    | error e => exact ⟨e, by simp [extractGo, hps]⟩
    | ok ps =>
      have hrest : ∃ g2 ∈ rest, ∃ p ∈ g2.params, p.isNum = false := by
        obtain ⟨g2, hg2, p, hp, hfalse⟩ := h
        rcases List.mem_cons.mp hg2 with rfl | hmem
        · obtain ⟨e, he⟩ := floatParams_err g2.params ⟨p, hp, hfalse⟩
          rw [he] at hps
          cases hps
        · exact ⟨g2, hmem, p, hp, hfalse⟩
      obtain ⟨e, he⟩ := ih (step + 1) hrest
      exact ⟨e, by simp [extractGo, hps, he]⟩

/-- A well-formed one-gate circuit whose rotation carries an unbound symbolic
parameter: `float(p)` raises on it. -/
def cBadParam : Circuit := ⟨1, 0, [⟨"rx", [0], [Param.sym "theta"]⟩]⟩

/-- C5 counterexample: the claim says extraction "never fails" on a
well-formed circuit and "proceeds past" an instruction it cannot classify.
On `cBadParam` — a well-formed circuit whose single instruction carries a
parameter that `float` cannot convert — `extract_gates_from_circuit` aborts
the whole extraction with a `ValueError`, and no `unrecognized_gate_types`
side list exists anywhere in the code. -/
theorem extract_gates_can_fail :
    extract_gates_from_circuit cBadParam =
      Except.error "Error extracting gates: could not cast theta to float" := by
  rfl

/-- C5 amended: when every parameter of every instruction is numeric,
extraction succeeds with one record per instruction and `parameters`
defaulting to empty for parameterless instructions; but when any instruction
carries a parameter that `float` cannot convert, the whole extraction aborts
with `ValueError("Error extracting gates: …")` — there is no per-instruction
recovery and no `unrecognized_gate_types` side list. -/
theorem extract_gates_best_effort (c : Circuit) :
    ((∀ g ∈ c.data, ∀ p ∈ g.params, p.isNum = true) →
       ∃ gates, extract_gates_from_circuit c = Except.ok gates ∧
         gates.length = c.data.length ∧
         ∀ i (hi : i < gates.length) (hc : i < c.data.length),
           c.data[i].params = [] → gates[i].parameters = []) ∧
    ((∃ g ∈ c.data, ∃ p ∈ g.params, p.isNum = false) →
       ∃ e, extract_gates_from_circuit c =
         Except.error ("Error extracting gates: " ++ e)) := by
  constructor
  · intro hall
    obtain ⟨gates, hgo⟩ := extractGo_ok_all c.data 0 hall
    obtain ⟨hlen, hidx⟩ := extractGo_ok c.data 0 gates hgo
    refine ⟨gates, by simp [extract_gates_from_circuit, hgo], hlen, ?_⟩
    intro i hi hc hempty
    have h4 := (hidx i hi hc).2.2.2
    rw [hempty] at h4
    simpa [floatParams] using h4.symm
  · intro hbad
    obtain ⟨e, he⟩ := extractGo_err c.data 0 hbad
    exact ⟨e, by simp [extract_gates_from_circuit, he]⟩

/-- A concrete circuit whose parameters are all numeric. -/
def cW5 : Circuit := ⟨1, 0, [⟨"x", [0], []⟩, ⟨"rz", [0], [Param.num 2]⟩]⟩

/-- Witness for C5's amended theorem: both branches applied at concrete
circuits. -/
theorem extract_gates_best_effort_witness :
    (∃ gates, extract_gates_from_circuit cW5 = Except.ok gates ∧
       gates.length = cW5.data.length ∧
       ∀ i (hi : i < gates.length) (hc : i < cW5.data.length),
         cW5.data[i].params = [] → gates[i].parameters = []) ∧
    (∃ e, extract_gates_from_circuit cBadParam =
       Except.error ("Error extracting gates: " ++ e)) :=
  ⟨(extract_gates_best_effort cW5).1 (by decide),
   (extract_gates_best_effort cBadParam).2
     ⟨⟨"rx", [0], [Param.sym "theta"]⟩, by decide, Param.sym "theta", by decide, rfl⟩⟩

/-! ## Properties of the statevector engine -/

lemma applyInstr_ok_length (n : ℕ) (g : Instruction) (v w : List Cx)
    (h : applyInstr n g v = .ok w) : w.length = 2 ^ n := by
  simp only [applyInstr] at h
  split at h
  · cases h; simp [applyX]
  · cases h; simp [applyCX]
  · cases h

lemma runInstructions_ok_length (n : ℕ) (l : List Instruction) :
    ∀ v w, v.length = 2 ^ n → runInstructions n l v = .ok w →
      w.length = 2 ^ n := by
  induction l with
  | nil =>
    intro v w h1 h2
    simp only [runInstructions] at h2
    cases h2
    exact h1
  | cons g rest ih =>
    intro v w h1 h2
    simp only [runInstructions] at h2
    cases happ : applyInstr n g v with
    | error e => rw [happ] at h2; cases h2
    | ok u =>
      rw [happ] at h2
      exact ih u w (applyInstr_ok_length n g v u happ) h2

lemma fromInstruction_ok_length (c : Circuit) (sv : List Cx)
    (h : fromInstruction c = .ok sv) : sv.length = 2 ^ c.num_qubits :=
  runInstructions_ok_length c.num_qubits c.data (initState c.num_qubits) sv
    (by simp [initState]) h

/-- C2: for every circuit with `n` qubits accepted by `simulate_statevector`,
the returned sequence contains exactly `2^n` entries ordered by ascending
basis-state integer index — the entry at position `i` carries the basis label
`i` formatted as a zero-padded binary string of width `n` — and every entry's
`probability` equals `amplitude_real` squared plus `amplitude_imag`
squared. -/
theorem simulate_statevector_entries (c : Circuit)
    (entries : List StatevectorEntry)
    (h : (simulate_statevector c).1 = Except.ok entries) :
    entries.length = 2 ^ c.num_qubits ∧
    ∀ i (hi : i < entries.length),
      entries[i].state = toBinStr c.num_qubits i ∧
      entries[i].probability =
        entries[i].amplitude_real ^ 2 + entries[i].amplitude_imag ^ 2 := by
  simp only [simulate_statevector] at h
  cases hfi : fromInstruction (statevectorWorkingCircuit c) with
  | error e => rw [hfi] at h; cases h
  | ok sv =>
    rw [hfi] at h
    cases h
    have hsv : sv.length = 2 ^ c.num_qubits :=
      fromInstruction_ok_length (statevectorWorkingCircuit c) sv hfi
    refine ⟨by simp [formatStatevector, hsv], ?_⟩
    intro i hi
    have hil : i < sv.length := by
      simpa [formatStatevector] using hi
    constructor
    · simp [formatStatevector]
    · simp only [formatStatevector, List.getElem_map, List.getElem_range,
        Cx.normSq]
      ring

/-- A one-qubit circuit holding a single X gate. -/
def cW2 : Circuit := ⟨1, 0, [⟨"x", [0], []⟩]⟩

/-- The statevector JSON list computed for `cW2`. -/
def entriesW2 : List StatevectorEntry := [⟨"0", 0, 0, 0⟩, ⟨"1", 1, 0, 1⟩]

/-- Witness for C2 at the concrete circuit `cW2`. -/
theorem simulate_statevector_entries_witness :
    (simulate_statevector cW2).1 = Except.ok entriesW2 ∧
    entriesW2.length = 2 ^ cW2.num_qubits ∧
    (entriesW2.get ⟨0, by decide⟩).state = toBinStr cW2.num_qubits 0 ∧
    (entriesW2.get ⟨1, by decide⟩).state = toBinStr cW2.num_qubits 1 ∧
    (entriesW2.get ⟨1, by decide⟩).probability =
      (entriesW2.get ⟨1, by decide⟩).amplitude_real ^ 2 +
        (entriesW2.get ⟨1, by decide⟩).amplitude_imag ^ 2 := by
  have h : (simulate_statevector cW2).1 = Except.ok entriesW2 := by
    have h1 : (simulate_statevector cW2).1 =
        Except.ok (formatStatevector cW2.num_qubits (applyX 1 0 (initState 1))) :=
      rfl
    rw [h1]
    simp [formatStatevector, applyX, initState, toBinStr, binDigits, entriesW2,
      List.range_succ, Cx.normSq, List.getD, cW2,
      show (0:Cx).re = 0 from rfl, show (0:Cx).im = 0 from rfl]
  have h2 := simulate_statevector_entries cW2 entriesW2 h
  exact ⟨h, h2.1, by simpa using (h2.2 0 (by decide)).1,
    by simpa using (h2.2 1 (by decide)).1,
    by simpa using (h2.2 1 (by decide)).2⟩

/-- Position-wise description of the `RemoveFinalMeasurements` transform:
what survives at index `i` of the program `l` — `none` exactly when the
instruction there is a final measurement (followed on its qubits only by
measurements or barriers). -/
def keepAt (l : List Instruction) (i : ℕ) : Option Instruction :=
  let g := l.getD i ⟨"", [], []⟩
  if g.name == "measure" && !hasLaterNonMeasure g (l.drop (i + 1)) then none
  else some g

lemma keepAt_cons_succ (g : Instruction) (rest : List Instruction) (i : ℕ) :
    keepAt (g :: rest) (i + 1) = keepAt rest i := by
  simp [keepAt]

lemma removeFinal_eq (l : List Instruction) :
    removeFinalMeasurementsData l =
      (List.range l.length).filterMap (keepAt l) := by
  induction l with
  | nil => rfl
  | cons g rest ih =>
    have hfun : keepAt (g :: rest) ∘ Nat.succ = keepAt rest :=
      funext (keepAt_cons_succ g rest)
    by_cases hc : (g.name == "measure" && !hasLaterNonMeasure g rest) = true
    · simp [removeFinalMeasurementsData, hc, List.range_succ_eq_map,
        List.filterMap_cons, keepAt, List.filterMap_map, hfun, ih]
    · simp [removeFinalMeasurementsData, hc, List.range_succ_eq_map,
        List.filterMap_cons, keepAt, List.filterMap_map, hfun, ih]

/-- A one-qubit circuit with a mid-circuit measurement: a `measure` followed
by an X gate on the same qubit. -/
def cMid : Circuit := ⟨1, 1, [⟨"measure", [0], []⟩, ⟨"x", [0], []⟩]⟩

/-- C3 counterexample: the claim says the working copy used by
`simulate_statevector` has EVERY `measure` instruction removed.  The code
calls `remove_final_measurements`, which removes only final measurements: on
`cMid` the mid-circuit `measure` survives in the working copy (in fact the
working copy's program is unchanged), so the claim is false as stated. -/
theorem statevector_copy_retains_measure :
    ((statevectorWorkingCircuit cMid).data.filter
        (fun g => g.name == "measure")).length = 1 ∧
    (statevectorWorkingCircuit cMid).data = cMid.data := by decide

/-- C3 amended: `simulate_statevector` computes its result on a working copy
from which every FINAL measure instruction — one followed on its qubits only
by other measurements or barriers — has been removed (mid-circuit
measurements are retained: every `measure` left in the working copy has a
later non-measurement instruction on one of its qubits), and the caller's
circuit is handed back unchanged by the call. -/
theorem simulate_statevector_frame (c : Circuit) :
    (simulate_statevector c).2 = c ∧
    (statevectorWorkingCircuit c).data =
      (List.range c.data.length).filterMap (keepAt c.data) ∧
    ∀ g ∈ (statevectorWorkingCircuit c).data, g.name = "measure" →
      ∃ i, ∃ hi : i < c.data.length, c.data[i] = g ∧
        hasLaterNonMeasure g (c.data.drop (i + 1)) = true := by
  refine ⟨?_, removeFinal_eq c.data, ?_⟩
  · simp only [simulate_statevector]
    cases hfi : fromInstruction (statevectorWorkingCircuit c) <;> rfl
  · intro g hg hname
    rw [show (statevectorWorkingCircuit c).data =
          removeFinalMeasurementsData c.data from rfl,
        removeFinal_eq c.data] at hg
    obtain ⟨i, hiR, hkeep⟩ := List.mem_filterMap.mp hg
    have hlt : i < c.data.length := List.mem_range.mp hiR
    simp only [keepAt] at hkeep
    by_cases hc : ((c.data.getD i ⟨"", [], []⟩).name == "measure" &&
        !hasLaterNonMeasure (c.data.getD i ⟨"", [], []⟩)
          (c.data.drop (i + 1))) = true
    · rw [if_pos hc] at hkeep; cases hkeep
    · rw [if_neg hc] at hkeep
      have hgd : c.data.getD i ⟨"", [], []⟩ = g := by
        injection hkeep
      have hge : c.data[i] = g := by
        rw [← hgd]
        exact (List.getD_eq_getElem c.data ⟨"", [], []⟩ hlt).symm
      refine ⟨i, hlt, hge, ?_⟩
      rw [hgd] at hc
      simp only [hname] at hc
      simpa using hc

/-- Witness for C3's amended theorem at the concrete circuit `cMid`. -/
theorem simulate_statevector_frame_witness :
    (simulate_statevector cMid).2 = cMid ∧
    (∃ i, ∃ hi : i < cMid.data.length,
       cMid.data[i] = (⟨"measure", [0], []⟩ : Instruction) ∧
       hasLaterNonMeasure ⟨"measure", [0], []⟩
         (cMid.data.drop (i + 1)) = true) :=
  ⟨(simulate_statevector_frame cMid).1,
   (simulate_statevector_frame cMid).2.2 ⟨"measure", [0], []⟩ (by decide) rfl⟩

/-! ## Properties of the sampling engine -/

/-- C6: for every circuit containing no `measure` instruction,
`simulate_measurements` appends (on the working copy it executes) a barrier
followed by a full measurement of every qubit — the auto-measure-all policy —
and every qubit has a measurement in the executed circuit; for circuits
already containing a `measure`, nothing is added; and on every path the
caller's circuit is handed back unchanged. -/
theorem simulate_measurements_auto_measure (c : Circuit) (shots : ℕ)
    (bc : List (String × ℕ)) :
    (c.data.any (fun g => g.name == "measure") = false →
       (measurementCircuit c).data =
         c.data ++ (⟨"barrier", List.range c.num_qubits, []⟩ : Instruction) ::
           (List.range c.num_qubits).map (fun q => ⟨"measure", [q], []⟩) ∧
       ∀ q < c.num_qubits,
         (⟨"measure", [q], []⟩ : Instruction) ∈ (measurementCircuit c).data) ∧
    (c.data.any (fun g => g.name == "measure") = true →
       measurementCircuit c = c) ∧
    (simulate_measurements c shots bc).2 = c := by
  refine ⟨?_, ?_, rfl⟩
  · intro h
    have hmc : measurementCircuit c = measure_all c := by
      simp [measurementCircuit, h]
    refine ⟨by rw [hmc]; rfl, ?_⟩
    intro q hq
    rw [hmc]
    refine List.mem_append.mpr (Or.inr ?_)
    refine List.mem_cons.mpr (Or.inr ?_)
    exact List.mem_map.mpr ⟨q, List.mem_range.mpr hq, rfl⟩
  · intro h
    simp [measurementCircuit, h]

/-- A two-qubit circuit with no measurement anywhere. -/
def cW6a : Circuit := ⟨2, 0, [⟨"h", [0], []⟩]⟩

/-- A one-qubit circuit that already measures its qubit. -/
def cW6b : Circuit := ⟨1, 1, [⟨"measure", [0], []⟩]⟩

/-- Witness for C6 at the concrete circuits `cW6a` (no measure) and `cW6b`
(already measured). -/
theorem simulate_measurements_auto_measure_witness :
    (measurementCircuit cW6a).data =
      cW6a.data ++ (⟨"barrier", List.range cW6a.num_qubits, []⟩ : Instruction) ::
        (List.range cW6a.num_qubits).map (fun q => ⟨"measure", [q], []⟩) ∧
    (⟨"measure", [1], []⟩ : Instruction) ∈ (measurementCircuit cW6a).data ∧
    measurementCircuit cW6b = cW6b ∧
    (simulate_measurements cW6a 1024 [("00", 1024)]).2 = cW6a :=
  ⟨((simulate_measurements_auto_measure cW6a 1024 []).1 (by decide)).1,
   ((simulate_measurements_auto_measure cW6a 1024 []).1 (by decide)).2 1 (by decide),
   (simulate_measurements_auto_measure cW6b 0 []).2.1 (by decide),
   (simulate_measurements_auto_measure cW6a 1024 [("00", 1024)]).2.2⟩

/-! ## Properties of the loader and the execution sandbox -/

/-- C1: executing source text that produces zero circuit-typed top-level
bindings makes `parse_qiskit_code` raise a circuit-load error; exactly one
such binding is returned without raising; two or more return the first in
declaration (dict-insertion) order. -/
theorem parse_selects_first_circuit (s : SysState)
    (binds : List (String × PyVal)) :
    (circuitsOf binds = [] →
       ∃ e, (parse_qiskit_code s (.ok binds)).1 = Except.error e) ∧
    (∀ nm c, circuitsOf binds = [(nm, c)] →
       (parse_qiskit_code s (.ok binds)).1 = Except.ok c) ∧
    (∀ nm c p rest, circuitsOf binds = (nm, c) :: p :: rest →
       (parse_qiskit_code s (.ok binds)).1 = Except.ok c) := by
  refine ⟨?_, ?_, ?_⟩
  · intro h
    exact ⟨wrapParseError noCircuitMsg (tbOfValueError noCircuitMsg),
      by simp [parse_qiskit_code, h]⟩
  · intro nm c h
    simp [parse_qiskit_code, h]
  · intro nm c p rest h
    simp [parse_qiskit_code, h]

/-- A first circuit value, distinct from `cWB`. -/
def cWA : Circuit := ⟨1, 0, []⟩

/-- A second circuit value, distinct from `cWA`. -/
def cWB : Circuit := ⟨2, 0, []⟩

/-- A concrete pre-call stream state. -/
def s0 : SysState := ⟨10, 11⟩

/-- Witness for C1 on concrete binding lists with zero, one and two
circuit-typed bindings. -/
theorem parse_selects_first_circuit_witness :
    (∃ e, (parse_qiskit_code s0
        (.ok [("n", PyVal.other "int")])).1 = Except.error e) ∧
    (parse_qiskit_code s0
        (.ok [("n", PyVal.other "int"), ("qc", PyVal.circuit cWA)])).1 =
      Except.ok cWA ∧
    (parse_qiskit_code s0
        (.ok [("qc1", PyVal.circuit cWA), ("qc2", PyVal.circuit cWB)])).1 =
      Except.ok cWA :=
  ⟨(parse_selects_first_circuit s0 [("n", PyVal.other "int")]).1 rfl,
   (parse_selects_first_circuit s0
      [("n", PyVal.other "int"), ("qc", PyVal.circuit cWA)]).2.1 "qc" cWA rfl,
   (parse_selects_first_circuit s0
      [("qc1", PyVal.circuit cWA), ("qc2", PyVal.circuit cWB)]).2.2
     "qc1" cWA ("qc2", cWB) [] rfl⟩

/-- C7: when the executed user code raises, `execute_user_code` catches the
exception, appends an `"Execution error: …"` line to the captured text
output (after everything the code printed, before the tagged stderr block),
and returns the best-effort output object normally instead of propagating. -/
theorem execute_user_code_catches (s : SysState) (run : UserRun) (m : String)
    (h : run.exn = some m) :
    (execute_user_code s run).1 =
      Except.ok
        { text_output :=
            run.printedOut ++ ("Execution error: " ++ m ++ "\n") ++
              stderrTag run.printedErr,
          plots := run.plotsMade, circuit := none, statevector := none,
          counts := none } := by
  simp [execute_user_code, h]

/-- A concrete user run that prints a line and then raises. -/
def runW7 : UserRun :=
  ⟨"out\n", "", [], [("x", PyVal.other "int")], some "boom"⟩

/-- Witness for C7 at the concrete run `runW7`. -/
theorem execute_user_code_catches_witness :
    (execute_user_code s0 runW7).1 =
      Except.ok
        { text_output := "out\nExecution error: boom\n", plots := [],
          circuit := none, statevector := none, counts := none } := by
  have h := execute_user_code_catches s0 runW7 "boom" rfl
  rw [h]
  decide

lemma base64Encode_ne_nil (bytes : List ℕ) (h : bytes ≠ []) :
    base64Encode bytes ≠ [] := by
  match bytes with
  | [] => exact absurd rfl h
  | [a] => simp [base64Encode, base64Chunk]
  | [a, b] => simp [base64Encode, base64Chunk]
  | a :: b :: c :: rest => simp [base64Encode, base64Chunk]

/-- C8: an invocation of the intercepted histogram-plot call never raises
into the executing code: on successful rendering it appends exactly one
entry — the HTML fragment embedding the non-empty base64 payload — to the
plot list and returns a status string; on a failed rendering it returns an
error string, leaving the plot list unchanged. -/
theorem safe_plot_histogram_spec (title e : String) (bytes : List ℕ)
    (plots : List String) (cap : String) (hb : bytes ≠ []) :
    (safe_plot_histogram title (.ok bytes) plots cap).2.1 =
      plots ++ [plotHtml title (base64Encode bytes)] ∧
    base64Encode bytes ≠ [] ∧
    (safe_plot_histogram title (.ok bytes) plots cap).1 =
      "Plot '" ++ title ++ "' generated successfully" ∧
    (safe_plot_histogram title (.error e) plots cap).1 =
      "Plot generation failed: " ++ e ∧
    (safe_plot_histogram title (.error e) plots cap).2.1 = plots :=
  ⟨rfl, base64Encode_ne_nil bytes hb, rfl, rfl, rfl⟩

/-- Witness for C8 at a concrete title, PNG-signature byte payload and
render failure message. -/
theorem safe_plot_histogram_spec_witness :
    (safe_plot_histogram "T" (.ok [137, 80, 78, 71]) [] "").2.1 =
      [] ++ [plotHtml "T" (base64Encode [137, 80, 78, 71])] ∧
    base64Encode [137, 80, 78, 71] ≠ [] ∧
    (safe_plot_histogram "T" (.ok [137, 80, 78, 71]) [] "").1 =
      "Plot '" ++ "T" ++ "' generated successfully" ∧
    (safe_plot_histogram "T" (.error "render failed") [] "").1 =
      "Plot generation failed: " ++ "render failed" ∧
    (safe_plot_histogram "T" (.error "render failed") [] "").2.1 = [] :=
  safe_plot_histogram_spec "T" "render failed" [137, 80, 78, 71] [] ""
    (by decide)

/-- C9: both `parse_qiskit_code` and `execute_user_code` hand the
process-wide stdout/stderr handles back at their pre-call values on every
exit path — normal return, caught user-code exception, and the paths that
raise an error to the caller (the zero-circuit and exec-exception outcomes
of the parse call). -/
theorem streams_restored (s : SysState) (outcome : ExecOutcome)
    (run : UserRun) :
    (parse_qiskit_code s outcome).2 = s ∧ (execute_user_code s run).2 = s := by
  constructor <;> rfl

/-- C10 counterexample: the claim says the error payload surfaced to the
caller carries no raw traceback detail.  At a concrete failing execution the
`ValueError` message — surfaced verbatim as the `{error: …}` payload by
`views.py` — embeds the full `traceback.format_exc()` text after a
"Debug info:" marker. -/
theorem parse_error_payload_exposes_traceback :
    parseCircuitErrorPayload s0
        (.exn "boom" "Traceback (most recent call last): line 1") =
      some ("Error parsing Qiskit code: boom\n\nDebug info:\nTraceback (most recent call last): line 1") ∧
    strContainsSub "Traceback"
      "Error parsing Qiskit code: boom\n\nDebug info:\nTraceback (most recent call last): line 1" = true := by
  constructor
  · rfl
  · decide

/-- C10 amended: every exception raised during user-code evaluation in
`parse_qiskit_code` is rewrapped as a `ValueError` whose message carries the
original message FOLLOWED BY the formatted traceback after a "Debug info:"
marker, and that full message — traceback included — is exactly the
`{error: …}` payload surfaced to the caller by the REST boundary. -/
theorem parse_error_rewrap (s : SysState) (m tb : String) :
    (parse_qiskit_code s (.exn m tb)).1 =
      Except.error
        ("Error parsing Qiskit code: " ++ m ++ "\n\nDebug info:\n" ++ tb) ∧
    parseCircuitErrorPayload s (.exn m tb) =
      some ("Error parsing Qiskit code: " ++ m ++ "\n\nDebug info:\n" ++ tb) := by
  constructor <;> rfl
